import Mathlib

/-!
Shallow embedding of the EGRNParser multi-source organization-resolution
pipeline: the record schema (`models.py`), the classification filter and
resolution engine (`src/core/service.py`), the file cache
(`src/cache/cache_implementations.py`), the legacy engine's batch
coordinator (`search_engine.py`), the simplified export record
(`src/models/simple_models.py`) and the provider data transformers
(`src/scrapers/scraper_implementations.py`).

Python conventions carried over explicitly:
  - `None`-able values become `Option`;
  - Python truthiness of an optional string (`not x` is true for both
    `None` and `""`) is `pyOptStrFalsy`;
  - a dynamically typed argument slot that can hold `None`, a bool or a
    list (the `okved_filters` slot reached through the positional-argument
    call in `search_organization`) becomes the sum type `FilterArg`;
  - a raised exception that the caller observes becomes `Except.error`;
    exceptions swallowed by a local `try/except` are matched away where
    the source catches them.
-/

/-- A `datetime.datetime` value, restricted to its date part (the code
only ever constructs midnight datetimes and formats day/month/year). -/
structure PyDate where
  year : Nat
  month : Nat
  day : Nat
deriving Repr, DecidableEq

/-- Gregorian leap-year test, as used by `datetime`'s range validation. -/
def isLeapYear (y : Nat) : Bool :=
  y % 4 == 0 && (y % 100 != 0 || y % 400 == 0)

/-- Days in a month, as used by `datetime`'s range validation. -/
def daysInMonth (y m : Nat) : Nat :=
  if m == 2 then (if isLeapYear y then 29 else 28)
  else if m == 4 || m == 6 || m == 9 || m == 11 then 30
  else 31

/-- `datetime(year, month, day)`: validates ranges, raising (here: `none`)
on an out-of-range component. -/
def mkDatetime (y m d : Nat) : Option PyDate :=
  if 1 ≤ y && y ≤ 9999 && 1 ≤ m && m ≤ 12 && 1 ≤ d && d ≤ daysInMonth y m then
    some ⟨y, m, d⟩
  else
    none

/-- The canonical `Organization` pydantic model (`models.py`).
Optional fields default to `None`; `okved_additional` defaults to the
empty list; `region` defaults to the configured region string. -/
structure Organization where
  name : String
  inn : Option String := none
  ogrn : Option String := none
  kpp : Option String := none
  okved : Option String := none
  okved_additional : List String := []
  address : Option String := none
  phone : Option String := none
  email : Option String := none
  director : Option String := none
  registration_date : Option PyDate := none
  status : Option String := none
  region : String := "Тюменская область"
deriving Repr, DecidableEq

/-- Keyword arguments supplied to the `Organization(...)` constructor:
`none` in a slot means the keyword was not passed. -/
structure OrgInput where
  name : Option String := none
  inn : Option String := none
  ogrn : Option String := none
  kpp : Option String := none
  okved : Option String := none
  okved_additional : Option (List String) := none
  address : Option String := none
  phone : Option String := none
  email : Option String := none
  director : Option String := none
  registration_date : Option PyDate := none
  status : Option String := none
  region : Option String := none
deriving Repr, DecidableEq

/-- Pydantic construction of `Organization` (`models.py`): the only
required field is `name` (`Field(...)`); a missing `name` keyword raises a
validation error (`none` here), every other value passes through with its
declared default when absent.  Note the field type is plain `str`, so the
empty string is accepted. -/
def mkOrganization (i : OrgInput) : Option Organization :=
  match i.name with
  | none => none
  | some n =>
      some { name := n
             inn := i.inn
             ogrn := i.ogrn
             kpp := i.kpp
             okved := i.okved
             okved_additional := i.okved_additional.getD []
             address := i.address
             phone := i.phone
             email := i.email
             director := i.director
             registration_date := i.registration_date
             status := i.status
             region := i.region.getD "Тюменская область" }

/-- Python truthiness of an optional string: `not x` holds for `None` and
for the empty string. -/
def pyOptStrFalsy : Option String → Bool
  | none => true
  | some s => s.isEmpty

/-- The value held in the service's `okved_filters` slot.  Through the
typed interface it is `None` or a list of strings, but the positional
argument mix-up in `search_organization` can also place a bool there. -/
inductive FilterArg where
  | noneA : FilterArg
  | boolA : Bool → FilterArg
  | listA : List String → FilterArg
deriving Repr, DecidableEq

/-- Python truthiness of a `FilterArg` value. -/
def FilterArg.truthy : FilterArg → Bool
  | .noneA => false
  | .boolA b => b
  | .listA xs => !xs.isEmpty

/-- `str.startswith(p)`: `p` is a prefix of the string, compared
character by character. -/
def pyStartsWith (s p : String) : Bool :=
  p.toList.isPrefixOf s.toList

/-- The primary-code loop of `_matches_okved_filter`: any filter string
that the primary okved starts with. -/
def okvedMainLoop (fs : List String) (okved : String) : Bool :=
  fs.any (fun f => pyStartsWith okved f)

/-- The additional-codes loop of `_matches_okved_filter`: any additional
code starting with any filter string. -/
def okvedAdditionalLoop (adds fs : List String) : Bool :=
  adds.any (fun a => fs.any (fun f => pyStartsWith a f))

/-- `OrganizationSearchService._matches_okved_filter`
(`src/core/service.py`):
  - falsy `self.okved_filters` (absent or empty list): `True`;
  - falsy `organization.okved` (absent or empty string): `False`, before
    any look at `okved_additional`;
  - otherwise iterate the filters against the primary code, then against
    each additional code (the `hasattr` guard always holds on the model).
Iterating a `bool` filter value raises `TypeError` (`Except.error`). -/
def matchesOkvedFilterE (filters : FilterArg) (org : Organization) :
    Except Unit Bool :=
  if !filters.truthy then
    .ok true
  else if pyOptStrFalsy org.okved then
    .ok false
  else
    match filters with
    | .listA fs =>
        if okvedMainLoop fs (org.okved.getD "") then .ok true
        else if okvedAdditionalLoop org.okved_additional fs then .ok true
        else .ok false
    | .boolA _ => .error ()
    | .noneA => .ok true

/-- `OrganizationSearchEngine.filter_by_okved` (`search_engine.py`): the
legacy copy takes the filters as a plain list and nests the
additional-code check inside the per-filter loop. -/
def filterByOkved (org : Organization) (fs : List String) : Bool :=
  if fs.isEmpty then
    true
  else if pyOptStrFalsy org.okved then
    false
  else
    fs.any (fun f =>
      pyStartsWith (org.okved.getD "") f
        || org.okved_additional.any (fun a => pyStartsWith a f))

/-! ## Cache store (`src/cache/cache_implementations.py`) -/

/-- `_get_cache_path`'s filename sanitization: keep alphanumerics, space,
hyphen and underscore, then strip trailing whitespace (`str.rstrip`).
(`str.isalnum` is modelled on the alphanumeric range the repository's
ASCII keys use.) -/
def sanitizeKey (key : String) : String :=
  let kept := key.toList.filter
    (fun c => c.isAlphanum || c == ' ' || c == '-' || c == '_')
  String.mk (kept.reverse.dropWhile (fun c => c.isWhitespace)).reverse

/-- The on-disk content of one cache file: either unreadable/corrupt
(any parse error) or a good entry `{cached_at, organization}` with
`cached_at` as seconds since the epoch. -/
inductive CacheFile where
  | corrupt : CacheFile
  | entry : Nat → Organization → CacheFile
deriving Repr, DecidableEq

/-- The cache directory: one file per sanitized key. -/
def CacheStore := List (String × CacheFile)

/-- `FileCacheStrategy.get`: `None` when the file does not exist, when
reading/parsing it raises (logged, treated as a miss), or when
`(datetime.now() - cache_time).days >= cache_days`; otherwise the stored
record.  `timedelta.days` is whole days, i.e. seconds divided by 86400
rounded down.  The expired file is not touched. -/
def fileCacheGet (store : CacheStore) (now cacheDays : Nat) (key : String) :
    Option Organization :=
  match List.lookup (sanitizeKey key) store with
  | none => none
  | some .corrupt => none
  | some (.entry t org) =>
      if (now - t) / 86400 ≥ cacheDays then none else some org

/-- `FileCacheStrategy.set`: (over)write the file for the sanitized key
with `cached_at = datetime.now()` and the record. -/
def fileCacheSet (store : CacheStore) (now : Nat) (key : String)
    (org : Organization) : CacheStore :=
  (sanitizeKey key, .entry now org)
    :: store.filter (fun p => p.1 != sanitizeKey key)

/-- Which cache strategy the service was built with: `FileCacheStrategy`
or `NoCacheStrategy`. -/
inductive CacheKind where
  | file : CacheKind
  | noop : CacheKind
deriving Repr, DecidableEq

/-- `self.cache.get(name)` under the chosen strategy: the no-op strategy
always misses. -/
def cacheGet (kind : CacheKind) (store : CacheStore) (now cacheDays : Nat)
    (key : String) : Option Organization :=
  match kind with
  | .file => fileCacheGet store now cacheDays key
  | .noop => none

/-- `self.cache.set(name, result)` under the chosen strategy: the no-op
strategy persists nothing. -/
def cacheSet (kind : CacheKind) (store : CacheStore) (now : Nat)
    (key : String) (org : Organization) : CacheStore :=
  match kind with
  | .file => fileCacheSet store now key org
  | .noop => store

/-! ## Resolution engine (`src/core/service.py`) -/

/-- Outcome of one `scraper.search_organization(name, region)` call:
it raises, returns `None`, or returns a record. -/
inductive ProviderStep where
  | err : ProviderStep
  | nodata : ProviderStep
  | found : Organization → ProviderStep
deriving Repr, DecidableEq

/-- A provider extractor, as the engine sees it. -/
def Provider := String → String → ProviderStep

/-- The scraper loop of `OrganizationSearchService.search_single`, entered
on a cache miss: providers in declared order; an exception anywhere in
the `try` body (the call itself, or a `TypeError` from the filter) is
logged and the loop continues; a found record passing the filter is
cached and returned; a found record failing the filter is skipped without
caching. -/
def tryScrapers (filters : FilterArg) (kind : CacheKind)
    (store : CacheStore) (now : Nat) (providers : List Provider)
    (name region : String) : Option Organization × CacheStore :=
  match providers with
  | [] => (none, store)
  | p :: ps =>
      match p name region with
      | .err => tryScrapers filters kind store now ps name region
      | .nodata => tryScrapers filters kind store now ps name region
      | .found org =>
          match matchesOkvedFilterE filters org with
          | .ok true => (some org, cacheSet kind store now name org)
          | .ok false => tryScrapers filters kind store now ps name region
          | .error _ => tryScrapers filters kind store now ps name region

/-- `OrganizationSearchService.search_single`: check the cache; on a hit,
apply the okved filter outside any `try` (a `TypeError` there propagates
to the caller) and return the record or `None` without ever consulting a
provider; on a miss, walk the scraper loop. -/
def searchSingleE (filters : FilterArg) (kind : CacheKind)
    (store : CacheStore) (now : Nat) (providers : List Provider)
    (name region : String) :
    Except Unit (Option Organization × CacheStore) :=
  match cacheGet kind store now 7 name with
  | some cached =>
      match matchesOkvedFilterE filters cached with
      | .ok true => .ok (some cached, store)
      | .ok false => .ok (none, store)
      | .error e => .error e
  | none => .ok (tryScrapers filters kind store now providers name region)

/-! ## Simplified export record (`src/models/simple_models.py`) -/

/-- Zero-padded two-digit field, as `strftime` renders `%d` and `%m`. -/
def pad2 (n : Nat) : String :=
  if n < 10 then "0" ++ toString n else toString n

/-- `registration_date.strftime('%d.%m.%Y')` on the date part
(glibc prints `%Y` without padding). -/
def formatRegDate (d : PyDate) : String :=
  pad2 d.day ++ "." ++ pad2 d.month ++ "." ++ toString d.year

/-- The simplified export record produced at the public boundary
(`SimpleOrganization`, keys of its `dict()` projection). -/
structure SimpleOrganization where
  name : String
  inn : Option String := none
  ogrn : Option String := none
  okved : Option String := none
  status : Option String := none
  reg_date : Option String := none
  phone_number : Option String := none
deriving Repr, DecidableEq

/-- `SimpleOrganization.from_organization`: project the full record,
rendering the registration date as `DD.MM.YYYY` when present
(a `datetime` object is always truthy).  `dict()` then emits exactly
these fields, so the structure doubles as the output dictionary. -/
def SimpleOrganization.from_organization (org : Organization) :
    SimpleOrganization :=
  { name := org.name
    inn := org.inn
    ogrn := org.ogrn
    okved := org.okved
    status := org.status
    reg_date := org.registration_date.map formatRegDate
    phone_number := org.phone }

/-- The literal dictionary `search_organizations` builds for a name with
no resolved organization: only `name` populated. -/
def emptyExport (name : String) : SimpleOrganization :=
  { name := name }

/-- The `if org: ... else: ...` body of the per-name loop in
`search_organizations`. -/
def exportOutcome (name : String) (org : Option Organization) :
    SimpleOrganization :=
  match org with
  | some o => SimpleOrganization.from_organization o
  | none => emptyExport name

/-! ## Concurrency coordinator (`asyncio.gather` over a worker pool) -/

/-- The worker pool runs the per-index task bodies in some completion
order; each finished task remembers which slot it belongs to. -/
def runTasks {α : Type} (body : Nat → α) (order : List Nat) :
    List (Nat × α) :=
  order.map (fun i => (i, body i))

/-- `asyncio.gather(*tasks)` collects results in task-creation order,
whatever order the executor finished them in: slot `i` of the output is
whatever task `i` produced.  A slot no completed task claims cannot occur
when `order` enumerates every index; it is mapped to `none`. -/
def gatherSlots {α : Type} (n : Nat) (completed : List (Nat × α)) :
    List (Option α) :=
  (List.range n).map (fun i => List.lookup i completed)

/-- One task body of `search_multiple_async`: `search_single` for one
name, keeping only the returned record (cache writes race unobserved).
A `TypeError` escaping `search_single` escapes `run_in_executor`. -/
def serviceTask (filters : FilterArg) (kind : CacheKind)
    (store : CacheStore) (now : Nat) (providers : List Provider)
    (region : String) (name : String) :
    Except Unit (Option Organization) :=
  (searchSingleE filters kind store now providers name region).map
    Prod.fst

/-- Read the finished tasks back off slot by slot in task-creation
order: an exception held by any slot propagates; an unclaimed slot
(possible only for a completion order that is not a permutation of the
indices) is also surfaced as an error. -/
def collectSlots {α : Type} (completed : List (Nat × Except Unit α)) :
    List Nat → Except Unit (List α)
  | [] => .ok []
  | i :: is =>
      match List.lookup i completed with
      | none => .error ()
      | some (.error e) => .error e
      | some (.ok a) =>
          match collectSlots completed is with
          | .ok rest => .ok (a :: rest)
          | .error e => .error e

/-- `asyncio.gather` over the per-name tasks: whatever order the worker
pool completed them in, results come back aligned to the task list; if
any awaited task raised, the exception propagates out of
`search_multiple_async`. -/
def gatherE {α : Type} (n : Nat) (body : Nat → Except Unit α)
    (order : List Nat) : Except Unit (List α) :=
  collectSlots (runTasks body order) (List.range n)

/-- How the `use_cache` slot can be filled: a bool through the typed
interface, or a string through the positional-argument mix-up in
`search_organization`. -/
inductive CacheArg where
  | boolC : Bool → CacheArg
  | strC : String → CacheArg
deriving Repr, DecidableEq

/-- Python truthiness of the `use_cache` slot. -/
def CacheArg.truthy : CacheArg → Bool
  | .boolC b => b
  | .strC s => !s.isEmpty

/-- `FileCacheStrategy() if use_cache else NoCacheStrategy()` in
`search_organizations`. -/
def chooseCache (use_cache : CacheArg) : CacheKind :=
  if use_cache.truthy then .file else .noop

/-- The public entry point `search_organizations`
(`src/core/service.py`): pick the cache strategy from the truthiness of
`use_cache`, resolve every name through the service (one task per name,
completed in an arbitrary `order`), then zip the names with the results
and build one export dictionary per name. -/
def searchOrganizationsFn (names : List String) (okved_filters : FilterArg)
    (use_cache : CacheArg) (region : String) (store : CacheStore)
    (now : Nat) (providers : List Provider) (order : List Nat) :
    Except Unit (List SimpleOrganization) :=
  let kind := chooseCache use_cache
  let body := fun i =>
    serviceTask okved_filters kind store now providers region
      (names.getD i "")
  (gatherE names.length body order).map (fun orgs =>
    (names.zip orgs).map (fun p => exportOutcome p.1 p.2))

/-- The single-name convenience wrapper `search_organization`
(`src/core/service.py`): it calls
`search_organizations([name], use_cache, region)` positionally, so the
bool lands in the `okved_filters` slot and the region string in the
`use_cache` slot; it returns `results[0] if results else None`. -/
def searchOrganizationFn (name : String) (use_cache : Bool)
    (region : String) (store : CacheStore) (now : Nat)
    (providers : List Provider) (order : List Nat) :
    Except Unit (Option SimpleOrganization) :=
  (searchOrganizationsFn [name] (.boolA use_cache) (.strC region) region
      store now providers order).map
    (fun results => results.head?)

/-! ## Legacy engine batch coordinator (`search_engine.py`) -/

/-- The `SearchResult` pydantic model (`models.py`). -/
structure SearchResult where
  query : String
  found : Bool
  organization : Option Organization := none
  error : Option String := none
deriving Repr, DecidableEq

/-- The `try` body of the result-collection loop in
`search_organizations_async`: awaiting one task either raises (converted
to a `found=False` result with reason `"Ошибка поиска: <message>"`) or
yields the resolution, which is then classified through
`filter_by_okved(organization, request.okved_filter or [])`. -/
def engineOutcome (okvedFilter : Option (List String)) (name : String)
    (task : Except String (Option Organization)) : SearchResult :=
  match task with
  | .error e =>
      { query := name, found := false
        error := some ("Ошибка поиска: " ++ e) }
  | .ok (some org) =>
      if filterByOkved org (okvedFilter.getD []) then
        { query := name, found := true, organization := some org }
      else
        { query := name, found := false
          error := some "Организация найдена, но не соответствует фильтру ОКВЭД" }
  | .ok none =>
      { query := name, found := false
        error := some "Организация не найдена" }

/-- The collection loop of `search_organizations_async`: tasks are
awaited in input order and each outcome appended, so the batch is a
per-task map and an exception in one task touches only its own slot. -/
def collectResults (okvedFilter : Option (List String))
    (outcomes : List (String × Except String (Option Organization))) :
    List SearchResult :=
  outcomes.map (fun p => engineOutcome okvedFilter p.1 p.2)

/-! ## Provider data transformers
(`src/scrapers/scraper_implementations.py`) -/

/-- A decoded JSON object with string fields, as `ZachemINN`'s search
endpoint returns per item. -/
def JsonDict := List (String × String)

/-- `data.get(key, default)`. -/
def dictGetD (d : JsonDict) (key default : String) : String :=
  (List.lookup key d).getD default

/-- `key in data`. -/
def dictHas (d : JsonDict) (key : String) : Bool :=
  (List.lookup key d).isSome

/-- `int(s)` restricted to the unsigned decimal literals these pages
carry. -/
def pyInt (s : String) : Option Nat :=
  s.toNat?

/-- `datetime.fromisoformat` on the `YYYY-MM-DD[...]` strings the sources
emit: parse the date part and validate ranges. -/
def parseIsoDatetime (s : String) : Option PyDate :=
  match (s.splitOn "T").headD "" |>.splitOn "-" with
  | [y, m, d] =>
      match pyInt y, pyInt m, pyInt d with
      | some yn, some mn, some dn => mkDatetime yn mn dn
      | _, _, _ => none
  | _ => none

/-- `ZachemINNDataTransformer.transform`: every string field is read with
`data.get(field, '')`, so a missing source field becomes the *empty
string*, not an absent value; the registration date is parsed only when
the key is present and parse failures are swallowed.  The constructor
always receives a (possibly empty) `name` string, so it never raises. -/
def zachemInnTransform (data : JsonDict) : Option Organization :=
  let base : OrgInput :=
    { name := some (dictGetD data "name" "")
      inn := some (dictGetD data "inn" "")
      ogrn := some (dictGetD data "ogrn" "")
      kpp := some (dictGetD data "kpp" "")
      address := some (dictGetD data "address" "")
      status := some (dictGetD data "status" "")
      okved := some (dictGetD data "okved_code" "")
      director := some (dictGetD data "director" "") }
  let withDate :=
    if dictHas data "registration_date" then
      match parseIsoDatetime (dictGetD data "registration_date" "") with
      | some d => { base with registration_date := some d }
      | none => base
    else base
  mkOrganization withDate

/-- `str.split()` with no argument: split on whitespace runs, dropping
empty pieces. -/
def pySplit (s : String) : List String :=
  (s.splitOn " ").filter (fun t => !t.isEmpty)

/-- The genitive Russian month names recognized by
`_parse_search_result`; `months.get(name, 1)` defaults to January. -/
def ruMonth (s : String) : Nat :=
  if s == "января" then 1 else if s == "февраля" then 2
  else if s == "марта" then 3 else if s == "апреля" then 4
  else if s == "мая" then 5 else if s == "июня" then 6
  else if s == "июля" then 7 else if s == "августа" then 8
  else if s == "сентября" then 9 else if s == "октября" then 10
  else if s == "ноября" then 11 else if s == "декабря" then 12
  else 1

/-- `parts[2].rstrip('г.')`: strip trailing characters drawn from the
set `{'г', '.'}`. -/
def rstripYearMark (s : String) : String :=
  String.mk (s.toList.reverse.dropWhile (fun c => c == 'г' || c == '.')).reverse

/-- The `'Дата регистрации'` branch of `_parse_search_result`: split the
value, need at least three pieces, `int` day, month-name lookup with
default January, `int` year after stripping `г.`; any failure (including
`datetime` range validation) is swallowed and the field skipped. -/
def parseRuRegDate (value : String) : Option PyDate :=
  match pySplit value with
  | p0 :: p1 :: p2 :: _ =>
      match pyInt p0, pyInt (rstripYearMark p2) with
      | some day, some year => mkDatetime year (ruMonth p1) day
      | _, _ => none
  | _ => none

/-- One Rusprofile search-result card, reduced to what
`_parse_search_result` reads from the DOM: the title text (present iff
the title div exists and holds a link), the `(dt, dd)` label/value pairs
of its info sections in document order, and the address text. -/
structure CompanyItem where
  title : Option String := none
  infoPairs : List (String × String) := []
  address : Option String := none

/-- The label-dispatch body of the `dl` loop in `_parse_search_result`.
The `'Уставный капитал'` branch stores a `capital` key that the
`Organization` model does not declare and pydantic ignores. -/
def applyPair (acc : OrgInput) (p : String × String) : OrgInput :=
  let label := p.1
  let value := p.2
  if label == "ИНН" then { acc with inn := some value }
  else if label == "ОГРН" then { acc with ogrn := some value }
  else if label == "Дата регистрации" then
    match parseRuRegDate value with
    | some d => { acc with registration_date := some d }
    | none => acc
  else if label == "Основной вид деятельности" then
    if value.toList.contains ' ' then
      { acc with okved := some ((pySplit value).headD "") }
    else
      { acc with okved := some value }
  else if label == "Директор" || label == "Генеральный директор" then
    { acc with director := some value }
  else acc

/-- `RusprofileScraperImpl._parse_search_result`: collect the name from
the title, fold the label/value pairs, take the address, then
unconditionally set `status = 'Действующая'`; since `org_data` therefore
always has a key, the final guard always constructs, and the constructor
raises (caught, yielding `None`) exactly when the title gave no name. -/
def parseSearchResult (item : CompanyItem) : Option Organization :=
  let withName : OrgInput :=
    match item.title with
    | some t => { name := some t }
    | none => {}
  let afterPairs := item.infoPairs.foldl applyPair withName
  let withAddr :=
    match item.address with
    | some a => { afterPairs with address := some a }
    | none => afterPairs
  mkOrganization { withAddr with status := some "Действующая" }

/-- The record (if any) a single `search_single` call hands back,
discarding the cache state; total because the error case is read off as
"no record". -/
def searchSingleResult (filters : FilterArg) (kind : CacheKind)
    (store : CacheStore) (now : Nat) (providers : List Provider)
    (name region : String) : Option Organization :=
  match searchSingleE filters kind store now providers name region with
  | .ok (r, _) => r
  | .error _ => none

/-! ## Helper lemmas -/

theorem matchesOkvedFilterE_listA_ne_error (fs : List String)
    (org : Organization) :
    matchesOkvedFilterE (.listA fs) org ≠ .error () := by
  by_cases h0 : (!(FilterArg.listA fs).truthy) = true
  · simp [matchesOkvedFilterE, h0]
  · by_cases h1 : pyOptStrFalsy org.okved = true
    · simp [matchesOkvedFilterE, h0, h1]
    · by_cases h2 : okvedMainLoop fs (org.okved.getD "") = true
      · simp [matchesOkvedFilterE, h0, h1, h2]
      · by_cases h3 : okvedAdditionalLoop org.okved_additional fs = true <;>
          simp [matchesOkvedFilterE, h0, h1, h2, h3]

theorem matchesOkvedFilterE_noneA (org : Organization) :
    matchesOkvedFilterE .noneA org = .ok true := by
  simp [matchesOkvedFilterE, FilterArg.truthy]

theorem matchesOkvedFilterE_boolTrue_ne_ok_true (org : Organization) :
    matchesOkvedFilterE (.boolA true) org ≠ .ok true := by
  by_cases h1 : pyOptStrFalsy org.okved = true <;>
    simp [matchesOkvedFilterE, FilterArg.truthy, h1]

theorem okved_loops_iff (fs adds : List String) (s : String) :
    ((okvedMainLoop fs s || okvedAdditionalLoop adds fs) = true) ↔
      ((∃ f ∈ fs, pyStartsWith s f = true) ∨
        ∃ a ∈ adds, ∃ f ∈ fs, pyStartsWith a f = true) := by
  simp [okvedMainLoop, okvedAdditionalLoop, List.any_eq_true]

/-- C1 (corrected): the classification filter returns true on an absent
or empty filter list; when the filter list is non-empty, an absent or
*empty* primary okved short-circuits to false before `okved_additional`
is ever consulted; only when the primary okved is present and non-empty
does the filter hold iff the primary code or some additional code starts
with one of the filter strings — in both copies of the filter. -/
theorem okved_filter_semantics (fs : List String) (org : Organization)
    (s : String) :
    matchesOkvedFilterE .noneA org = .ok true
    ∧ matchesOkvedFilterE (.listA []) org = .ok true
    ∧ filterByOkved org [] = true
    ∧ (fs ≠ [] → pyOptStrFalsy org.okved = true →
        matchesOkvedFilterE (.listA fs) org = .ok false
          ∧ filterByOkved org fs = false)
    ∧ (org.okved = some s → s ≠ "" → fs ≠ [] →
        ((matchesOkvedFilterE (.listA fs) org = .ok true ↔
           (∃ f ∈ fs, pyStartsWith s f = true) ∨
             ∃ a ∈ org.okved_additional, ∃ f ∈ fs, pyStartsWith a f = true)
         ∧ (filterByOkved org fs = true ↔
           (∃ f ∈ fs, pyStartsWith s f = true) ∨
             ∃ a ∈ org.okved_additional, ∃ f ∈ fs, pyStartsWith a f = true))) := by
  refine ⟨matchesOkvedFilterE_noneA org, ?_, ?_, ?_, ?_⟩
  · simp [matchesOkvedFilterE, FilterArg.truthy]
  · simp [filterByOkved]
  · intro hfs hfalsy
    have hne : fs.isEmpty = false := by
      cases fs with
      | nil => exact absurd rfl hfs
      | cons a tl => rfl
    constructor
    · simp [matchesOkvedFilterE, FilterArg.truthy, hne, hfalsy]
    · simp [filterByOkved, hne, hfalsy]
  · intro hok hs hfs
    have hne : fs.isEmpty = false := by
      cases fs with
      | nil => exact absurd rfl hfs
      | cons a tl => rfl
    have hfalsy : pyOptStrFalsy org.okved = false := by
      rw [hok]
      simp only [pyOptStrFalsy, Bool.eq_false_iff, ne_eq,
        String.isEmpty_iff]
      exact hs
    have hget : org.okved.getD "" = s := by rw [hok]; rfl
    constructor
    · rw [← okved_loops_iff fs org.okved_additional s]
      by_cases hm : okvedMainLoop fs s = true
      · simp [matchesOkvedFilterE, FilterArg.truthy, hne, hfalsy, hget, hm]
      · by_cases ha : okvedAdditionalLoop org.okved_additional fs = true <;>
          simp [matchesOkvedFilterE, FilterArg.truthy, hne, hfalsy, hget,
            hm, ha]
    · have hunf : filterByOkved org fs
          = fs.any (fun f => pyStartsWith s f
              || org.okved_additional.any (fun a => pyStartsWith a f)) := by
        simp [filterByOkved, hne, hfalsy, hget]
      rw [hunf]
      simp only [List.any_eq_true, Bool.or_eq_true]
      constructor
      · rintro ⟨f, hf, h | h⟩
        · exact Or.inl ⟨f, hf, h⟩
        · rcases h with ⟨a, ha, h2⟩
          exact Or.inr ⟨a, ha, f, hf, h2⟩
      · rintro (⟨f, hf, h⟩ | ⟨a, ha, f, hf, h⟩)
        · exact ⟨f, hf, Or.inl h⟩
        · exact ⟨f, hf, Or.inr ⟨a, ha, h⟩⟩

/-- C1 counterexample: with filter `["43"]`, a record with no primary
okved and additional code `"43.1"` is *rejected* by the filter, where
the claim promises a match. -/
theorem okved_filter_additional_only_cex :
    matchesOkvedFilterE (.listA ["43"])
      { name := "x", okved := none, okved_additional := ["43.1"] }
      = .ok false
    ∧ filterByOkved
      { name := "x", okved := none, okved_additional := ["43.1"] }
      ["43"] = false := by
  exact ⟨rfl, rfl⟩

theorem okved_filter_semantics_witness :
    (matchesOkvedFilterE (.listA ["43"])
        { name := "x", okved := none, okved_additional := ["43.1"] }
        = .ok false
      ∧ filterByOkved
        { name := "x", okved := none, okved_additional := ["43.1"] }
        ["43"] = false)
    ∧ ((matchesOkvedFilterE (.listA ["41"])
          { name := "y", okved := some "41.20" } = .ok true ↔
          (∃ f ∈ ["41"], pyStartsWith "41.20" f = true) ∨
            ∃ a ∈ (({ name := "y", okved := some "41.20" } :
                Organization)).okved_additional,
              ∃ f ∈ ["41"], pyStartsWith a f = true)
        ∧ (filterByOkved { name := "y", okved := some "41.20" } ["41"]
            = true ↔
          (∃ f ∈ ["41"], pyStartsWith "41.20" f = true) ∨
            ∃ a ∈ (({ name := "y", okved := some "41.20" } :
                Organization)).okved_additional,
              ∃ f ∈ ["41"], pyStartsWith a f = true)) :=
  ⟨(okved_filter_semantics ["43"]
      { name := "x", okved := none, okved_additional := ["43.1"] }
      "").2.2.2.1 (by decide) rfl,
   (okved_filter_semantics ["41"]
      { name := "y", okved := some "41.20" }
      "41.20").2.2.2.2 rfl (by decide) (by decide)⟩

/-- C2: a valid cache hit that fails the classification filter terminates
the resolution with no record: the outcome is identical for every
provider list (no extractor is consulted and the cache is untouched),
and the batch layer renders the name-only export record for it. -/
theorem cache_hit_filtered_short_circuit (filters : FilterArg)
    (kind : CacheKind) (store : CacheStore) (now : Nat)
    (name region : String) (org : Organization)
    (providers providers2 : List Provider)
    (hhit : cacheGet kind store now 7 name = some org)
    (hfail : matchesOkvedFilterE filters org = .ok false) :
    searchSingleE filters kind store now providers name region
      = .ok (none, store)
    ∧ searchSingleE filters kind store now providers name region
        = searchSingleE filters kind store now providers2 name region
    ∧ exportOutcome name none = emptyExport name := by
  have h1 : ∀ ps, searchSingleE filters kind store now ps name region
      = .ok (none, store) := by
    intro ps
    simp only [searchSingleE, hhit, hfail]
  exact ⟨h1 providers, by rw [h1 providers, h1 providers2], rfl⟩

theorem cache_hit_filtered_short_circuit_witness :
    searchSingleE (.listA ["52"]) .file
      [("q", .entry 0 { name := "ООО Ромашка", okved := some "47.11" })]
      3600 [] "q" "r"
      = .ok (none,
          [("q", .entry 0 { name := "ООО Ромашка", okved := some "47.11" })])
    ∧ searchSingleE (.listA ["52"]) .file
        [("q", .entry 0 { name := "ООО Ромашка", okved := some "47.11" })]
        3600 [] "q" "r"
        = searchSingleE (.listA ["52"]) .file
            [("q", .entry 0
                { name := "ООО Ромашка", okved := some "47.11" })]
            3600 [fun _ _ => .nodata] "q" "r"
    ∧ exportOutcome "q" none = emptyExport "q" :=
  cache_hit_filtered_short_circuit (.listA ["52"]) .file
    [("q", .entry 0 { name := "ООО Ромашка", okved := some "47.11" })]
    3600 "q" "r" { name := "ООО Ромашка", okved := some "47.11" }
    [] [fun _ _ => .nodata] rfl rfl

theorem tryScrapers_cache_spec (filters : FilterArg) (kind : CacheKind)
    (store : CacheStore) (now : Nat) (name region : String) :
    ∀ (providers : List Provider) (res : Option Organization)
      (store2 : CacheStore),
      tryScrapers filters kind store now providers name region
          = (res, store2) →
      store2 = res.elim store (fun o => cacheSet kind store now name o)
        ∧ ∀ o, res = some o → matchesOkvedFilterE filters o = .ok true := by
  intro providers
  induction providers with
  | nil =>
      intro res store2 hrun
      simp only [tryScrapers] at hrun
      cases hrun
      exact ⟨rfl, fun o ho => by cases ho⟩
  | cons p ps ih =>
      intro res store2 hrun
      simp only [tryScrapers] at hrun
      cases hstep : p name region with
      | err =>
          rw [hstep] at hrun
          exact ih res store2 hrun
      | nodata =>
          rw [hstep] at hrun
          exact ih res store2 hrun
      | found org =>
          rw [hstep] at hrun
          cases hfil : matchesOkvedFilterE filters org with
          | ok b =>
              cases b with
              | true =>
                  simp only [hfil] at hrun
                  cases hrun
                  exact ⟨rfl, fun o ho => by cases ho; exact hfil⟩
              | false =>
                  simp only [hfil] at hrun
                  exact ih res store2 hrun
          | error e =>
              simp only [hfil] at hrun
              exact ih res store2 hrun

/-- C3: on a cache miss the resolution is exactly the scraper loop; the
loop skips a found record that fails the filter and continues with the
remaining providers without caching it; over any provider list the cache
is written exactly for a returned record, and a returned record always
passed the filter. -/
theorem miss_filtered_not_cached (filters : FilterArg) (kind : CacheKind)
    (store : CacheStore) (now : Nat) (name region : String)
    (org o : Organization) (ps providers : List Provider)
    (res : Option Organization) (store2 : CacheStore)
    (hmiss : cacheGet kind store now 7 name = none)
    (hfail : matchesOkvedFilterE filters org = .ok false)
    (hrun : tryScrapers filters kind store now providers name region
      = (res, store2)) :
    searchSingleE filters kind store now providers name region
      = .ok (tryScrapers filters kind store now providers name region)
    ∧ tryScrapers filters kind store now
        ((fun _ _ => ProviderStep.found org) :: ps) name region
        = tryScrapers filters kind store now ps name region
    ∧ store2 = res.elim store (fun o2 => cacheSet kind store now name o2)
    ∧ (res = some o → matchesOkvedFilterE filters o = .ok true) := by
  refine ⟨?_, ?_, ?_, ?_⟩
  · simp only [searchSingleE, hmiss]
  · simp only [tryScrapers, hfail]
  · exact (tryScrapers_cache_spec filters kind store now name region
      providers res store2 hrun).1
  · exact fun ho => (tryScrapers_cache_spec filters kind store now name
      region providers res store2 hrun).2 o ho

theorem miss_filtered_not_cached_witness :
    searchSingleE (.listA ["47"]) .file [] 0
      [fun _ _ => .found { name := "A", okved := some "47.11" }] "q" "r"
      = .ok (tryScrapers (.listA ["47"]) .file [] 0
          [fun _ _ => .found { name := "A", okved := some "47.11" }]
          "q" "r")
    ∧ tryScrapers (.listA ["47"]) .file [] 0
        ((fun _ _ => ProviderStep.found
            { name := "B", okved := some "52.1" })
          :: [fun _ _ => .found { name := "A", okved := some "47.11" }])
        "q" "r"
        = tryScrapers (.listA ["47"]) .file [] 0
            [fun _ _ => .found { name := "A", okved := some "47.11" }]
            "q" "r"
    ∧ [("q", CacheFile.entry 0 { name := "A", okved := some "47.11" })]
        = (some { name := "A", okved := some "47.11" } :
            Option Organization).elim ([] : CacheStore)
            (fun o2 => cacheSet .file [] 0 "q" o2)
    ∧ ((some { name := "A", okved := some "47.11" } :
          Option Organization)
          = some { name := "A", okved := some "47.11" } →
        matchesOkvedFilterE (.listA ["47"])
          { name := "A", okved := some "47.11" } = .ok true) :=
  miss_filtered_not_cached (.listA ["47"]) .file [] 0 "q" "r"
    { name := "B", okved := some "52.1" }
    { name := "A", okved := some "47.11" }
    [fun _ _ => .found { name := "A", okved := some "47.11" }]
    [fun _ _ => .found { name := "A", okved := some "47.11" }]
    (some { name := "A", okved := some "47.11" })
    [("q", CacheFile.entry 0 { name := "A", okved := some "47.11" })]
    rfl rfl rfl

/-- C5: a provider call that raises is absorbed by the loop (the result
with the raising provider in front is the result without it, and the
loop's type carries no error), and in the two-provider scenario where
Provider A raises and Provider B returns a filter-passing record, the
cache-miss resolution resolves with B's record and caches it. -/
theorem provider_exception_fallback (filters : FilterArg)
    (kind : CacheKind) (store : CacheStore) (now : Nat)
    (name region : String) (pA pB : Provider) (orgB : Organization)
    (providers : List Provider)
    (hmiss : cacheGet kind store now 7 name = none)
    (hA : pA name region = .err)
    (hB : pB name region = .found orgB)
    (hpass : matchesOkvedFilterE filters orgB = .ok true) :
    tryScrapers filters kind store now (pA :: providers) name region
      = tryScrapers filters kind store now providers name region
    ∧ searchSingleE filters kind store now [pA, pB] name region
        = .ok (some orgB, cacheSet kind store now name orgB) := by
  constructor
  · simp only [tryScrapers, hA]
  · simp only [searchSingleE, hmiss, tryScrapers, hA, hB, hpass]

theorem provider_exception_fallback_witness :
    tryScrapers (.listA ["47"]) .file [] 0
      ((fun _ _ => ProviderStep.err)
        :: [fun _ _ => .found { name := "B", okved := some "47.2" }])
      "q" "r"
      = tryScrapers (.listA ["47"]) .file [] 0
          [fun _ _ => .found { name := "B", okved := some "47.2" }]
          "q" "r"
    ∧ searchSingleE (.listA ["47"]) .file [] 0
        [fun _ _ => ProviderStep.err,
         fun _ _ => .found { name := "B", okved := some "47.2" }] "q" "r"
        = .ok (some { name := "B", okved := some "47.2" },
            cacheSet .file [] 0 "q"
              { name := "B", okved := some "47.2" }) :=
  provider_exception_fallback (.listA ["47"]) .file [] 0 "q" "r"
    (fun _ _ => ProviderStep.err)
    (fun _ _ => .found { name := "B", okved := some "47.2" })
    { name := "B", okved := some "47.2" }
    [fun _ _ => .found { name := "B", okved := some "47.2" }]
    rfl rfl rfl rfl

/-- C4: `FileCacheStrategy.get` returns the stored record iff a readable
entry exists for the key's sanitized filename and its whole-day age is
strictly below the 7-day default; an 8-day-old entry misses, a 6-day-old
hits; reading is pure (an expired entry stays in the store), and the next
`set` for the same key overwrites the slot with a fresh entry the next
`get` returns. -/
theorem file_cache_staleness (store : CacheStore) (now t now2 : Nat)
    (key : String) (org org2 : Organization) :
    (List.lookup (sanitizeKey key) store = none →
      fileCacheGet store now 7 key = none)
    ∧ (List.lookup (sanitizeKey key) store = some .corrupt →
      fileCacheGet store now 7 key = none)
    ∧ (List.lookup (sanitizeKey key) store = some (.entry t org) →
      (fileCacheGet store now 7 key = some org ↔ (now - t) / 86400 < 7))
    ∧ (now - t = 8 * 86400 →
      List.lookup (sanitizeKey key) store = some (.entry t org) →
      fileCacheGet store now 7 key = none)
    ∧ (now - t = 6 * 86400 →
      List.lookup (sanitizeKey key) store = some (.entry t org) →
      fileCacheGet store now 7 key = some org)
    ∧ List.lookup (sanitizeKey key) (fileCacheSet store now2 key org2)
        = some (.entry now2 org2)
    ∧ fileCacheGet (fileCacheSet store now2 key org2) now2 7 key
        = some org2 := by
  refine ⟨?_, ?_, ?_, ?_, ?_, ?_, ?_⟩
  · intro h; simp only [fileCacheGet, h]
  · intro h; simp only [fileCacheGet, h]
  · intro h
    simp only [fileCacheGet, h]
    constructor
    · intro h2
      by_contra hc
      rw [if_pos (by omega)] at h2
      cases h2
    · intro h2
      rw [if_neg (by omega)]
  · intro hage h
    have : (now - t) / 86400 ≥ 7 := by rw [hage]; norm_num
    simp only [fileCacheGet, h, if_pos this]
  · intro hage h
    have hlt : ¬((now - t) / 86400 ≥ 7) := by rw [hage]; norm_num
    simp only [fileCacheGet, h, if_neg hlt]
  · simp only [fileCacheSet, List.lookup, beq_self_eq_true]
  · have hset : List.lookup (sanitizeKey key)
        (fileCacheSet store now2 key org2) = some (.entry now2 org2) := by
      simp only [fileCacheSet, List.lookup, beq_self_eq_true]
    simp only [fileCacheGet, hset, Nat.sub_self]
    norm_num

theorem file_cache_staleness_witness :
    fileCacheGet [("Test", .entry 0 { name := "T" })] (8 * 86400) 7
      "Test!" = none
    ∧ fileCacheGet [("Test", .entry 0 { name := "T" })] (6 * 86400) 7
        "Test!" = some { name := "T" }
    ∧ fileCacheGet
        (fileCacheSet [("Test", .entry 0 { name := "T" })] (9 * 86400)
          "Test!" { name := "T2" })
        (9 * 86400) 7 "Test!" = some { name := "T2" } :=
  ⟨(file_cache_staleness [("Test", .entry 0 { name := "T" })]
      (8 * 86400) 0 (9 * 86400) "Test!" { name := "T" }
      { name := "T2" }).2.2.2.1 (by norm_num) (by decide),
   (file_cache_staleness [("Test", .entry 0 { name := "T" })]
      (6 * 86400) 0 (9 * 86400) "Test!" { name := "T" }
      { name := "T2" }).2.2.2.2.1 (by norm_num) (by decide),
   (file_cache_staleness [("Test", .entry 0 { name := "T" })]
      (8 * 86400) 0 (9 * 86400) "Test!" { name := "T" }
      { name := "T2" }).2.2.2.2.2.2⟩

theorem lookup_runTasks_of_mem {α : Type} (body : Nat → α)
    (order : List Nat) (i : Nat) (h : i ∈ order) :
    List.lookup i (runTasks body order) = some (body i) := by
  induction order with
  | nil => cases h
  | cons j tl ih =>
      simp only [runTasks, List.map_cons] at ih ⊢
      by_cases hij : i = j
      · subst hij
        simp [List.lookup]
      · have hb : (i == j) = false := beq_eq_false_iff_ne.mpr hij
        simp only [List.lookup, hb]
        rcases List.mem_cons.mp h with h1 | h2
        · exact absurd h1 hij
        · exact ih h2

theorem collectSlots_ok {α : Type} (completed : List (Nat × Except Unit α))
    (f : Nat → α) (slots : List Nat)
    (h : ∀ i ∈ slots, List.lookup i completed = some (.ok (f i))) :
    collectSlots completed slots = .ok (slots.map f) := by
  induction slots with
  | nil => rfl
  | cons i is ih =>
      have hi := h i (List.mem_cons_self i is)
      have hrest := ih (fun j hj => h j (List.mem_cons_of_mem i hj))
      simp only [collectSlots, hi, hrest, List.map_cons]

theorem searchSingleE_listA_ne_error (fs : List String) (kind : CacheKind)
    (store : CacheStore) (now : Nat) (providers : List Provider)
    (name region : String) :
    searchSingleE (.listA fs) kind store now providers name region
      ≠ .error () := by
  unfold searchSingleE
  cases hc : cacheGet kind store now 7 name with
  | none => simp [hc]
  | some cached =>
      cases hm : matchesOkvedFilterE (.listA fs) cached with
      | ok b => cases b <;> simp [hc, hm]
      | error e =>
          cases e
          exact absurd hm (matchesOkvedFilterE_listA_ne_error fs cached)

theorem serviceTask_listA (fs : List String) (kind : CacheKind)
    (store : CacheStore) (now : Nat) (providers : List Provider)
    (region name : String) :
    serviceTask (.listA fs) kind store now providers region name
      = .ok (searchSingleResult (.listA fs) kind store now providers
          name region) := by
  unfold serviceTask searchSingleResult
  cases hs : searchSingleE (.listA fs) kind store now providers name
      region with
  | ok p => cases p; rfl
  | error e =>
      cases e
      exact absurd hs
        (searchSingleE_listA_ne_error fs kind store now providers name
          region)

theorem range_length_getD_map {α β : Type} (l : List α) (d : α)
    (f : α → β) :
    (List.range l.length).map (fun i => f (l.getD i d)) = l.map f := by
  induction l with
  | nil => rfl
  | cons a tl ih =>
      simp only [List.length_cons, List.range_succ_eq_map,
        List.map_cons, List.map_map]
      refine congrArg₂ List.cons rfl ?_
      have : ((fun i => f ((a :: tl).getD i d)) ∘ Nat.succ)
          = fun i => f (tl.getD i d) := by
        funext i
        simp [List.getD_cons_succ]
      rw [this, ih]

theorem zip_map_self {α β γ : Type} (l : List α) (g : α → β)
    (c : α → β → γ) :
    (l.zip (l.map g)).map (fun p => c p.1 p.2)
      = l.map (fun a => c a (g a)) := by
  induction l with
  | nil => rfl
  | cons a tl ih => simp only [List.map_cons, List.zip_cons_cons, ih]

/-- C6: in the batch collection loop an exception held by one per-name
task becomes a `found=False` result with reason
`"Ошибка поиска: <message>"` for that slot alone: the surrounding slots
collect exactly as they would on their own, and the collector is a total
function of the outcomes (the batch itself cannot raise). -/
theorem batch_error_isolated (okvedFilter : Option (List String))
    (pre post : List (String × Except String (Option Organization)))
    (name e : String) :
    collectResults okvedFilter (pre ++ (name, .error e) :: post)
      = collectResults okvedFilter pre
        ++ ({ query := name, found := false,
              error := some ("Ошибка поиска: " ++ e) } : SearchResult)
          :: collectResults okvedFilter post
    ∧ (collectResults okvedFilter
        (pre ++ (name, .error e) :: post)).length
        = pre.length + 1 + post.length := by
  constructor
  · simp [collectResults, engineOutcome]
  · simp only [collectResults, List.length_map, List.length_append,
      List.length_cons]
    omega

/-- C7: with a list-typed filter the public entry point returns, for
every completion order of the worker pool that covers all task indices,
exactly one simplified record per input name, aligned by input position;
an unresolved name yields the record with only `name` populated, and a
resolved name yields the `SimpleOrganization` projection, whose
`reg_date` is the `DD.MM.YYYY` rendering of the registration date. -/
theorem batch_output_aligned (names : List String) (fs : List String)
    (uc : CacheArg) (region : String) (store : CacheStore) (now : Nat)
    (providers : List Provider) (order : List Nat) (n0 : String)
    (org : Organization) (d : PyDate)
    (hperm : order.Perm (List.range names.length)) :
    searchOrganizationsFn names (.listA fs) uc region store now providers
        order
      = .ok (names.map (fun n => exportOutcome n
          (searchSingleResult (.listA fs) (chooseCache uc) store now
            providers n region)))
    ∧ (names.map (fun n => exportOutcome n
          (searchSingleResult (.listA fs) (chooseCache uc) store now
            providers n region))).length = names.length
    ∧ exportOutcome n0 none = emptyExport n0
    ∧ (org.registration_date = some d →
        exportOutcome n0 (some org)
          = SimpleOrganization.from_organization org
        ∧ (SimpleOrganization.from_organization org).reg_date
            = some (formatRegDate d)) := by
  refine ⟨?_, by simp, rfl, ?_⟩
  · have hgather : gatherE names.length
        (fun i => serviceTask (.listA fs) (chooseCache uc) store now
          providers region (names.getD i ""))
        order
        = .ok ((List.range names.length).map (fun i =>
            searchSingleResult (.listA fs) (chooseCache uc) store now
              providers (names.getD i "") region)) := by
      unfold gatherE
      apply collectSlots_ok
      intro i hi
      have hmem : i ∈ order := hperm.mem_iff.mpr hi
      rw [lookup_runTasks_of_mem _ order i hmem,
        serviceTask_listA]
    have hrange : (List.range names.length).map (fun i =>
        searchSingleResult (.listA fs) (chooseCache uc) store now
          providers (names.getD i "") region)
        = names.map (fun n =>
            searchSingleResult (.listA fs) (chooseCache uc) store now
              providers n region) :=
      range_length_getD_map names ""
        (fun n => searchSingleResult (.listA fs) (chooseCache uc) store
          now providers n region)
    simp only [searchOrganizationsFn, hgather, hrange, Except.map]
    rw [zip_map_self names
      (fun n => searchSingleResult (.listA fs) (chooseCache uc) store now
        providers n region)
      (fun n r => exportOutcome n r)]
  · intro hd
    constructor
    · rfl
    · simp [SimpleOrganization.from_organization, hd]

theorem batch_output_aligned_witness :
    (searchOrganizationsFn ["Alpha", "Beta", "Gamma"] (.listA ["47"])
        (.boolC false) "r" [] 0
        [fun n _ => if n == "Beta" then
            .found { name := "Beta", okved := some "47.1",
                     registration_date := some ⟨2008, 3, 5⟩ }
          else .nodata]
        [1, 2, 0]
      = .ok (["Alpha", "Beta", "Gamma"].map (fun n => exportOutcome n
          (searchSingleResult (.listA ["47"])
            (chooseCache (.boolC false)) [] 0
            [fun n _ => if n == "Beta" then
                .found { name := "Beta", okved := some "47.1",
                         registration_date := some ⟨2008, 3, 5⟩ }
              else .nodata]
            n "r"))))
    ∧ (["Alpha", "Beta", "Gamma"].map (fun n => exportOutcome n
          (searchSingleResult (.listA ["47"])
            (chooseCache (.boolC false)) [] 0
            [fun n _ => if n == "Beta" then
                .found { name := "Beta", okved := some "47.1",
                         registration_date := some ⟨2008, 3, 5⟩ }
              else .nodata]
            n "r"))).length = 3
    ∧ exportOutcome "Alpha" none = emptyExport "Alpha"
    ∧ (({ name := "Beta", okved := some "47.1",
          registration_date := some ⟨2008, 3, 5⟩ } :
            Organization).registration_date = some ⟨2008, 3, 5⟩ →
        exportOutcome "Alpha" (some
            { name := "Beta", okved := some "47.1",
              registration_date := some ⟨2008, 3, 5⟩ })
          = SimpleOrganization.from_organization
              { name := "Beta", okved := some "47.1",
                registration_date := some ⟨2008, 3, 5⟩ }
        ∧ (SimpleOrganization.from_organization
              { name := "Beta", okved := some "47.1",
                registration_date := some ⟨2008, 3, 5⟩ }).reg_date
            = some (formatRegDate ⟨2008, 3, 5⟩)) :=
  batch_output_aligned ["Alpha", "Beta", "Gamma"] ["47"] (.boolC false)
    "r" [] 0
    [fun n _ => if n == "Beta" then
        .found { name := "Beta", okved := some "47.1",
                 registration_date := some ⟨2008, 3, 5⟩ }
      else .nodata]
    [1, 2, 0] "Alpha"
    { name := "Beta", okved := some "47.1",
      registration_date := some ⟨2008, 3, 5⟩ }
    ⟨2008, 3, 5⟩ (by decide)

theorem lookup_runTasks_val {α : Type} (body : Nat → α)
    (order : List Nat) (i : Nat) (v : α)
    (h : List.lookup i (runTasks body order) = some v) : v = body i := by
  induction order with
  | nil => cases h
  | cons j tl ih =>
      simp only [runTasks, List.map_cons, List.lookup] at h ih
      by_cases hij : i = j
      · subst hij
        simp only [beq_self_eq_true] at h
        exact (Option.some_inj.mp h).symm
      · have hb : (i == j) = false := beq_eq_false_iff_ne.mpr hij
        rw [hb] at h
        exact ih h

theorem tryScrapers_boolTrue (kind : CacheKind) (store : CacheStore)
    (now : Nat) (name region : String) :
    ∀ providers,
      tryScrapers (.boolA true) kind store now providers name region
        = (none, store) := by
  intro providers
  induction providers with
  | nil => rfl
  | cons p ps ih =>
      cases hstep : p name region with
      | err => simp only [tryScrapers, hstep]; exact ih
      | nodata => simp only [tryScrapers, hstep]; exact ih
      | found org =>
          cases hm : matchesOkvedFilterE (.boolA true) org with
          | ok b =>
              cases b with
              | true =>
                  exact absurd hm
                    (matchesOkvedFilterE_boolTrue_ne_ok_true org)
              | false => simp only [tryScrapers, hstep, hm]; exact ih
          | error e => simp only [tryScrapers, hstep, hm]; exact ih

theorem serviceTask_boolTrue (kind : CacheKind) (store : CacheStore)
    (now : Nat) (providers : List Provider) (region name : String) :
    serviceTask (.boolA true) kind store now providers region name
        = .ok none
    ∨ serviceTask (.boolA true) kind store now providers region name
        = .error () := by
  unfold serviceTask searchSingleE
  cases hc : cacheGet kind store now 7 name with
  | none => left; simp [hc, tryScrapers_boolTrue, Except.map]
  | some cached =>
      cases hm : matchesOkvedFilterE (.boolA true) cached with
      | ok b =>
          cases b with
          | true =>
              exact absurd hm
                (matchesOkvedFilterE_boolTrue_ne_ok_true cached)
          | false => left; simp [hc, hm, Except.map]
      | error e => right; cases e; simp [hc, hm, Except.map]

theorem searchOrganizationsFn_boolTrue (name region : String)
    (uc : CacheArg) (store : CacheStore) (now : Nat)
    (providers : List Provider) (order : List Nat) :
    searchOrganizationsFn [name] (.boolA true) uc region store now
        providers order = .ok [emptyExport name]
    ∨ searchOrganizationsFn [name] (.boolA true) uc region store now
        providers order = .error () := by
  have key : searchOrganizationsFn [name] (.boolA true) uc region store
      now providers order
      = (collectSlots (runTasks (fun i =>
            serviceTask (.boolA true) (chooseCache uc) store now
              providers region ([name].getD i "")) order) [0]).map
          (fun orgs => ([name].zip orgs).map
            (fun p => exportOutcome p.1 p.2)) := rfl
  rw [key]
  cases hl : List.lookup 0 (runTasks (fun i =>
      serviceTask (.boolA true) (chooseCache uc) store now providers
        region ([name].getD i "")) order) with
  | none =>
      right
      simp only [collectSlots, hl]
      rfl
  | some v =>
      have hv : v = serviceTask (.boolA true) (chooseCache uc) store now
          providers region ([name].getD 0 "") :=
        lookup_runTasks_val _ order 0 v hl
      rcases serviceTask_boolTrue (chooseCache uc) store now providers
          region name with h | h
      · left
        have hv2 : v = .ok none := hv.trans h
        simp only [collectSlots, hl, hv2]
        rfl
      · right
        have hv2 : v = .error () := hv.trans h
        simp only [collectSlots, hl, hv2]
        rfl

/-- C10: `search_organization(name, u, region)` forwards its arguments
positionally, so `u` fills the `okved_filters` slot and `region` fills
the `use_cache` slot; a non-empty region string is truthy, so the
file-backed cache is always selected; and with `u = True` in the filter
slot, every run that returns at all returns the name-only record — no
organization is ever reported found. -/
theorem single_search_argument_swap (name region : String) (u : Bool)
    (store : CacheStore) (now : Nat) (providers : List Provider)
    (order : List Nat) (out : Option SimpleOrganization)
    (hregion : region ≠ "")
    (hout : searchOrganizationFn name true region store now providers
      order = .ok out) :
    searchOrganizationFn name u region store now providers order
      = (searchOrganizationsFn [name] (.boolA u) (.strC region) region
          store now providers order).map (fun results => results.head?)
    ∧ chooseCache (.strC region) = .file
    ∧ out = some (emptyExport name) := by
  refine ⟨rfl, ?_, ?_⟩
  · have hne : region.isEmpty = false := by
      rw [Bool.eq_false_iff]
      intro h
      exact hregion ((String.isEmpty_iff region).mp h)
    simp [chooseCache, CacheArg.truthy, hne]
  · rcases searchOrganizationsFn_boolTrue name region (.strC region)
        store now providers order with h | h
    · unfold searchOrganizationFn at hout
      rw [h] at hout
      simp only [Except.map] at hout
      cases hout
      rfl
    · unfold searchOrganizationFn at hout
      rw [h] at hout
      cases hout

theorem single_search_argument_swap_witness :
    "Тюменская область" ≠ ""
    ∧ (searchOrganizationFn "X" true "Тюменская область" [] 0
        [fun _ _ => .found { name := "X", okved := some "47.1" }] [0]
        = (searchOrganizationsFn ["X"] (.boolA true)
            (.strC "Тюменская область") "Тюменская область" [] 0
            [fun _ _ => .found { name := "X", okved := some "47.1" }]
            [0]).map (fun results => results.head?)
      ∧ chooseCache (.strC "Тюменская область") = .file
      ∧ (some (emptyExport "X") : Option SimpleOrganization)
          = some (emptyExport "X")) :=
  ⟨by decide,
   single_search_argument_swap "X" "Тюменская область" true [] 0
     [fun _ _ => .found { name := "X", okved := some "47.1" }] [0]
     (some (emptyExport "X")) (by decide) rfl⟩

/-- C9 (corrected): pydantic construction of `Organization` rejects a
missing `name` keyword, but accepts any string value for it — including
the empty string, since the field is a plain `str` with no length
constraint — and passes every other field through unvalidated. -/
theorem organization_construction (i : OrgInput) (n : String)
    (hname : i.name = some n) :
    mkOrganization i
      = some { name := n, inn := i.inn, ogrn := i.ogrn, kpp := i.kpp,
               okved := i.okved,
               okved_additional := i.okved_additional.getD [],
               address := i.address, phone := i.phone, email := i.email,
               director := i.director,
               registration_date := i.registration_date,
               status := i.status,
               region := i.region.getD "Тюменская область" }
    ∧ mkOrganization { i with name := none } = none := by
  constructor
  · simp only [mkOrganization, hname]
  · rfl

/-- C9 counterexample: constructing an `Organization` whose `name` is
the empty string succeeds, where the claim promises rejection. -/
theorem organization_empty_name_cex :
    mkOrganization { name := some "" } = some { name := "" } := rfl

theorem organization_construction_witness :
    mkOrganization { name := some "ООО Ромашка", inn := some "123" }
      = some { name := "ООО Ромашка", inn := some "123", ogrn := none,
               kpp := none, okved := none, okved_additional := [],
               address := none, phone := none, email := none,
               director := none, registration_date := none,
               status := none, region := "Тюменская область" }
    ∧ mkOrganization
        { ({ name := some "ООО Ромашка", inn := some "123" } : OrgInput)
          with name := none } = none :=
  organization_construction
    { name := some "ООО Ромашка", inn := some "123" } "ООО Ромашка" rfl

theorem foldl_applyPair_name (ps : List (String × String)) :
    ∀ acc : OrgInput, (List.foldl applyPair acc ps).name = acc.name := by
  induction ps with
  | nil => intro acc; rfl
  | cons q qs ih =>
      intro acc
      rw [List.foldl_cons, ih]
      unfold applyPair
      dsimp only
      split
      · rfl
      · split
        · rfl
        · split
          · split <;> rfl
          · split
            · split <;> rfl
            · split <;> rfl

theorem foldl_applyPair_inn (ps : List (String × String)) :
    ∀ acc : OrgInput, ps.all (fun p => p.1 != "ИНН") = true →
      (List.foldl applyPair acc ps).inn = acc.inn := by
  induction ps with
  | nil => intro acc _; rfl
  | cons q qs ih =>
      intro acc h
      rw [List.all_cons, Bool.and_eq_true] at h
      rw [List.foldl_cons, ih _ h.2]
      have hne : (q.1 == "ИНН") = false :=
        beq_eq_false_iff_ne.mpr (by simpa using h.1)
      unfold applyPair
      dsimp only
      simp only [hne, Bool.false_eq_true, if_false]
      split
      · rfl
      · split
        · split <;> rfl
        · split
          · split <;> rfl
          · split <;> rfl

theorem zachemInn_fields (data : JsonDict) (o : Organization)
    (h : zachemInnTransform data = some o) :
    o.name = dictGetD data "name" ""
    ∧ o.inn = some (dictGetD data "inn" "")
    ∧ o.status = some (dictGetD data "status" "") := by
  unfold zachemInnTransform at h
  dsimp only at h
  split at h
  · split at h
    · unfold mkOrganization at h
      dsimp only at h
      injection h with h2
      subst h2
      exact ⟨rfl, rfl, rfl⟩
    · unfold mkOrganization at h
      dsimp only at h
      injection h with h2
      subst h2
      exact ⟨rfl, rfl, rfl⟩
  · unfold mkOrganization at h
    dsimp only at h
    injection h with h2
    subst h2
    exact ⟨rfl, rfl, rfl⟩

theorem parseSearchResult_fields (item : CompanyItem) (t : String)
    (o : Organization)
    (ht : item.title = some t)
    (hnopair : item.infoPairs.all (fun p => p.1 != "ИНН") = true)
    (hr : parseSearchResult item = some o) :
    o.inn = none ∧ o.status = some "Действующая" ∧ o.name = t := by
  obtain ⟨title, pairs, addr⟩ := item
  dsimp only at ht hnopair hr
  subst ht
  have hname : (List.foldl applyPair { name := some t } pairs).name
      = some t := foldl_applyPair_name pairs _
  have hinn : (List.foldl applyPair { name := some t } pairs).inn
      = none := foldl_applyPair_inn pairs _ hnopair
  unfold parseSearchResult at hr
  dsimp only at hr
  cases addr with
  | none =>
      dsimp only at hr
      unfold mkOrganization at hr
      dsimp only at hr
      rw [hname] at hr
      dsimp only at hr
      injection hr with h2
      subst h2
      exact ⟨hinn, rfl, rfl⟩
  | some a =>
      dsimp only at hr
      unfold mkOrganization at hr
      dsimp only at hr
      rw [hname] at hr
      dsimp only at hr
      injection hr with h2
      subst h2
      exact ⟨hinn, rfl, rfl⟩

/-- C8 (corrected): the Rusprofile search-result parser does leave a
field with no recognized label absent, but it unconditionally sets
`status` to the constant `'Действующая'`, and the ZachemINN transformer
reads every string field with `data.get(field, '')`, so a field missing
from the source JSON becomes the empty string rather than staying
absent. -/
theorem extractor_missing_fields (data : JsonDict) (item : CompanyItem)
    (t : String) (org org2 : Organization)
    (hz : zachemInnTransform data = some org)
    (hmiss : dictHas data "inn" = false)
    (ht : item.title = some t)
    (hnopair : item.infoPairs.all (fun p => p.1 != "ИНН") = true)
    (hr : parseSearchResult item = some org2) :
    org.inn = some ""
    ∧ org.status = some (dictGetD data "status" "")
    ∧ org2.inn = none
    ∧ org2.status = some "Действующая" := by
  have hz2 := zachemInn_fields data org hz
  have hpr := parseSearchResult_fields item t org2 ht hnopair hr
  have hget : dictGetD data "inn" "" = "" := by
    unfold dictHas at hmiss
    unfold dictGetD
    cases hl : List.lookup "inn" data with
    | none => rfl
    | some v => rw [hl] at hmiss; simp at hmiss
  exact ⟨by rw [hz2.2.1, hget], hz2.2.2, hpr.1, hpr.2.1⟩

/-- C8 counterexample: on an empty source object the ZachemINN
transformer produces a record whose `inn`, `ogrn`, `kpp`, `okved`,
`address`, `director` and `status` are all the *empty string*, not
absent. -/
theorem extractor_missing_fields_cex :
    zachemInnTransform []
      = some { name := "", inn := some "", ogrn := some "",
               kpp := some "", okved := some "", address := some "",
               director := some "", status := some "" } := rfl

theorem extractor_missing_fields_witness :
    ({ name := "Орг", inn := some "", ogrn := some "", kpp := some "",
       okved := some "", address := some "", director := some "",
       status := some "OK" } : Organization).inn = some ""
    ∧ ({ name := "Орг", inn := some "", ogrn := some "", kpp := some "",
         okved := some "", address := some "", director := some "",
         status := some "OK" } : Organization).status
        = some (dictGetD [("name", "Орг"), ("status", "OK")] "status" "")
    ∧ ({ name := "T", ogrn := some "1027",
         status := some "Действующая" } : Organization).inn = none
    ∧ ({ name := "T", ogrn := some "1027",
         status := some "Действующая" } : Organization).status
        = some "Действующая" :=
  extractor_missing_fields [("name", "Орг"), ("status", "OK")]
    { title := some "T", infoPairs := [("ОГРН", "1027")],
      address := none }
    "T"
    { name := "Орг", inn := some "", ogrn := some "", kpp := some "",
      okved := some "", address := some "", director := some "",
      status := some "OK" }
    { name := "T", ogrn := some "1027", status := some "Действующая" }
    rfl rfl rfl (by decide) rfl
